import Mathlib

/-!
Verification of the node-cipher password-based file encryption library.

The development shallowly embeds the current core of the repository
(lib/nodeCipher.js, the lib/validators directory, lib/defaults.js and
lib/constants.js) together with the platform crypto interface it consumes
(crypto.pbkdf2, crypto.createCipher, crypto.createDecipher), and proves or
refutes the specification claims about validation, key derivation, the
synchronous and asynchronous cipher pipelines, and their error handling.

JavaScript values are modelled by an inductive type, options objects by a
record of such values, the file system by a partial map from paths to byte
lists, and the asynchronous stream pipeline both by its effect semantics
and by an explicit event-dispatch model of the handler wiring.
-/

set_option linter.unusedVariables false
set_option linter.unnecessarySeqFocus false

namespace NodeCipher

/-- Model of a JavaScript value as it can appear in a NodeCipher options
object: the undefined value, strings, numbers, Buffers (raw byte lists), or
any other value (functions, plain objects, ...). -/
inductive JSValue where
  | undef
  | str (s : String)
  | num (n : Int)
  | buf (b : List Nat)
  | other
  deriving DecidableEq, Repr

/-- Model of the JavaScript typeof operator, restricted to the values of
JSValue (Buffers and miscellaneous values have typeof "object"). -/
def jsTypeof : JSValue → String
  | .undef => "undefined"
  | .str _ => "string"
  | .num _ => "number"
  | .buf _ => "object"
  | .other => "object"

/-- True exactly on JavaScript strings (lodash isString). -/
def isString : JSValue → Bool
  | .str _ => true
  | _ => false

/-- True exactly on Buffers (Buffer.isBuffer). -/
def isBuffer : JSValue → Bool
  | .buf _ => true
  | _ => false

/-- True exactly on integers (lodash isInteger; our number model only holds
integers, mirroring that every option reaching the validators is either a
caller-given integer or an integer default). -/
def isInteger : JSValue → Bool
  | .num _ => true
  | _ => false

/-- True exactly on undefined (lodash isUndefined). -/
def isUndefined : JSValue → Bool
  | .undef => true
  | _ => false

/-- The string carried by a JavaScript string value (and a harmless dummy
on other values: the pipeline only reads it after validation has
established the field is a string). -/
def jsString : JSValue → String
  | .str s => s
  | _ => ""

/-- Byte view of a password or salt value, as consumed by crypto.pbkdf2:
strings contribute their character codes, Buffers their bytes. -/
def jsBytes : JSValue → List Nat
  | .str s => s.data.map Char.toNat
  | .buf b => b
  | _ => []

/-- Numeric view of an integer option (iterations, keylen). -/
def jsNat : JSValue → Nat
  | .num n => n.toNat
  | _ => 0

/-- A NodeCipher options object: the eight fields of the options schema
(lib/nodeCipher.js, NodeCipher.Defaults and the validators index). Each
field holds an arbitrary JavaScript value; validation constrains them. -/
structure Options where
  input : JSValue
  output : JSValue
  password : JSValue
  salt : JSValue
  iterations : JSValue
  keylen : JSValue
  digest : JSValue
  algorithm : JSValue
  deriving DecidableEq, Repr

/-- NodeCipher.Defaults (lib/nodeCipher.js together with lib/defaults.js):
input, output and password default to undefined; algorithm to "cast5-cbc",
salt to "nodecipher", iterations to 1000, keylen to 512, digest to "sha1". -/
def Defaults : Options :=
  { input := .undef
    output := .undef
    password := .undef
    salt := .str "nodecipher"
    iterations := .num 1000
    keylen := .num 512
    digest := .str "sha1"
    algorithm := .str "cast5-cbc" }

/-- Field-wise behaviour of lodash defaults: a destination field is
overwritten by the source field exactly when it is undefined. -/
def jsDefault (v d : JSValue) : JSValue :=
  match v with
  | .undef => d
  | v => v

/-- Lodash defaults applied to an options object: every undefined field of
the destination is assigned from the source object. Lodash mutates and
returns the destination object; the heap model below makes the mutation
explicit. -/
def lodashDefaults (o d : Options) : Options :=
  { input := jsDefault o.input d.input
    output := jsDefault o.output d.output
    password := jsDefault o.password d.password
    salt := jsDefault o.salt d.salt
    iterations := jsDefault o.iterations d.iterations
    keylen := jsDefault o.keylen d.keylen
    digest := jsDefault o.digest d.digest
    algorithm := jsDefault o.algorithm d.algorithm }

/-- NodeCipher._parseOptions: fill in any missing option with its default
value via lodash defaults over NodeCipher.Defaults. -/
def parseOptions (o : Options) : Options :=
  lodashDefaults o Defaults

/-- A validation error as produced by the lib/validators modules: the name
of the offending option and a human-readable message. -/
structure VError where
  option : String
  message : String
  deriving DecidableEq, Repr

/-- The platform crypto provider consumed by the core (require('crypto')):
the table of supported cipher names (crypto.getCiphers), the table of
supported digest names (crypto.getHashes), an HMAC primitive per digest
name with its output block length, and the data transforms realised by
crypto.createCipher and crypto.createDecipher for a given algorithm name
and password string (the composite of the update and final calls;
decryption may fail, modelling the bad-decrypt exception). -/
structure CryptoProvider where
  ciphers : List String
  hashes : List String
  hmac : String → List Nat → List Nat → List Nat
  hmacLen : String → Nat
  encryptData : String → String → List Nat → List Nat
  decryptData : String → String → List Nat → Option (List Nat)

/-- Validator for the input option (lib/validators/_input.js): undefined
pushes a required error, then any non-string pushes a type error. -/
def validateInput (val : JSValue) : List VError :=
  (if isUndefined val then [⟨"input", "\"input\" is required."⟩] else []) ++
    (if !isString val then
      [⟨"input", "\"input\" must be a string. Got \"" ++ jsTypeof val ++ "\""⟩]
    else [])

/-- Validator for the output option (lib/validators/_output.js). -/
def validateOutput (val : JSValue) : List VError :=
  (if isUndefined val then [⟨"output", "\"output\" is required."⟩] else []) ++
    (if !isString val then
      [⟨"output", "\"output\" must be a string. Got \"" ++ jsTypeof val ++ "\""⟩]
    else [])

/-- Validator for the password option (lib/validators/_password.js). -/
def validatePassword (val : JSValue) : List VError :=
  (if isUndefined val then [⟨"password", "\"password\" is required."⟩] else []) ++
    (if !isString val then
      [⟨"password", "\"password\" must be a string. Got \"" ++ jsTypeof val ++ "\""⟩]
    else [])

/-- Validator for the salt option (lib/validators/_salt.js): undefined
pushes a required error, then any value that is neither a string nor a
Buffer pushes a type error; strings and Buffers are accepted. -/
def validateSalt (val : JSValue) : List VError :=
  (if isUndefined val then [⟨"salt", "\"salt\" is required."⟩] else []) ++
    (if !isString val && !isBuffer val then
      [⟨"salt", "\"salt\" must be a string or buffer. Got \"" ++ jsTypeof val ++ "\""⟩]
    else [])

/-- Validator for the iterations option (lib/validators/_iterations.js). -/
def validateIterations (val : JSValue) : List VError :=
  (if isUndefined val then [⟨"iterations", "\"iterations\" is required."⟩] else []) ++
    (if !isInteger val then
      [⟨"iterations", "\"iterations\" must be an integer. Got \"" ++ jsTypeof val ++ "\""⟩]
    else [])

/-- Validator for the keylen option (lib/validators/_keylen.js). -/
def validateKeylen (val : JSValue) : List VError :=
  (if isUndefined val then [⟨"keylen", "\"keylen\" is required."⟩] else []) ++
    (if !isInteger val then
      [⟨"keylen", "\"keylen\" must be an integer. Got \"" ++ jsTypeof val ++ "\""⟩]
    else [])

/-- Modelled from the spec: the validators/_digest module is required by
the validators index (lib/validators/index.js) but its file is not in the
sources; following the spec (digest: required string, member of the
platform's supported-digest set) and the pattern of the sibling
lib/validators/_algorithm.js module. -/
def validateDigest (P : CryptoProvider) (val : JSValue) : List VError :=
  if isUndefined val then [⟨"digest", "\"digest\" is required."⟩]
  else if !isString val then
    [⟨"digest", "\"digest\" must be a string. Got \"" ++ jsTypeof val ++ "\""⟩]
  else if !P.hashes.contains (jsString val) then
    [⟨"digest", "\"" ++ jsString val ++ "\" is not a valid HMAC hash."⟩]
  else []

/-- Validator for the algorithm option (lib/validators/_algorithm.js):
required, must be a string, and must be a member of constants.ALL_CIPHERS
(crypto.getCiphers), checked in an else-if chain. -/
def validateAlgorithm (P : CryptoProvider) (val : JSValue) : List VError :=
  if isUndefined val then [⟨"algorithm", "\"algorithm\" is required."⟩]
  else if !isString val then
    [⟨"algorithm", "\"algorithm\" must be a string. Got \"" ++ jsTypeof val ++ "\""⟩]
  else if !P.ciphers.contains (jsString val) then
    [⟨"algorithm", "\"" ++ jsString val ++ "\" is not a valid cipher algorithm."⟩]
  else []

/-- NodeCipher._validateOptions: flatten the per-option validator results
over the eight options, in the order of the validators index
(lib/validators/index.js). -/
def validateOptions (P : CryptoProvider) (o : Options) : List VError :=
  validateInput o.input ++ validateOutput o.output ++
    validatePassword o.password ++ validateSalt o.salt ++
    validateIterations o.iterations ++ validateKeylen o.keylen ++
    validateDigest P o.digest ++ validateAlgorithm P o.algorithm

/-- Big-endian 32-bit block index suffix INT(i) of the PBKDF2 U1
computation (RFC 8018). -/
def int32be (i : Nat) : List Nat :=
  [i / 2 ^ 24 % 256, i / 2 ^ 16 % 256, i / 2 ^ 8 % 256, i % 256]

/-- Byte-wise exclusive or of two byte strings. -/
def xorBytes (a b : List Nat) : List Nat :=
  List.zipWith (fun x y => x ^^^ y) a b

/-- The PBKDF2 iterate U_j for block index blk: U_0 is the HMAC of the
salt concatenated with the block index, keyed by the password; each later
iterate is the HMAC of the previous one. -/
def pbkdf2U (prf : List Nat → List Nat → List Nat) (pw salt : List Nat)
    (blk : Nat) : Nat → List Nat
  | 0 => prf pw (salt ++ int32be blk)
  | j + 1 => prf pw (pbkdf2U prf pw salt blk j)

/-- The PBKDF2 block F(P, S, c, blk): the exclusive or of the first c
iterates (empty when c is zero; the library always calls it with the
validated iterations count). -/
def pbkdf2F (prf : List Nat → List Nat → List Nat) (pw salt : List Nat)
    (blk c : Nat) : List Nat :=
  match c with
  | 0 => []
  | m + 1 =>
    (List.range m).foldl
      (fun acc j => xorBytes acc (pbkdf2U prf pw salt blk (j + 1)))
      (pbkdf2U prf pw salt blk 0)

/-- PBKDF2 (RFC 8018): concatenate as many blocks F(P, S, c, i) for i from
1 upward as needed to cover keylen bytes given the HMAC output length
hLen, and truncate to exactly keylen bytes. -/
def pbkdf2 (prf : List Nat → List Nat → List Nat) (hLen : Nat)
    (pw salt : List Nat) (c keylen : Nat) : List Nat :=
  let n := (keylen + hLen - 1) / hLen
  (List.flatten ((List.range n).map (fun i => pbkdf2F prf pw salt (i + 1) c))).take
    keylen

/-- The platform key derivation entry point (crypto.pbkdf2 and
crypto.pbkdf2Sync compute the same function): PBKDF2 with the HMAC
primitive selected by the digest name. -/
def CryptoProvider.pbkdf2Bytes (P : CryptoProvider) (password salt : List Nat)
    (iterations keylen : Nat) (digest : String) : List Nat :=
  pbkdf2 (P.hmac digest) (P.hmacLen digest) password salt iterations keylen

/-- Lowercase hexadecimal digit for a value below 16 (Buffer.toString with
the hex encoding emits lowercase digits). -/
def hexDigit (n : Nat) : Char :=
  if n < 10 then Char.ofNat (48 + n) else Char.ofNat (87 + n)

/-- The character sequence of the lowercase hexadecimal rendering of a byte
string: two digits per byte, high nibble first. -/
def toHexChars (bytes : List Nat) : List Char :=
  bytes.foldr (fun b acc => hexDigit (b / 16 % 16) :: hexDigit (b % 16) :: acc) []

/-- Buffer.prototype.toString with the hex encoding: the lowercase
hexadecimal string representation of a byte string. -/
def toHex (bytes : List Nat) : String :=
  String.mk (toHexChars bytes)

/-- Value of a lowercase hexadecimal digit character. -/
def hexVal (c : Char) : Nat :=
  if c.toNat ≤ 57 then c.toNat - 48 else c.toNat - 87

/-- Decoder for a lowercase hexadecimal character sequence back into
bytes, two characters per byte. -/
def fromHexChars : List Char → List Nat
  | c1 :: c2 :: rest => (16 * hexVal c1 + hexVal c2) :: fromHexChars rest
  | _ => []

/-- The sixteen lowercase hexadecimal digit characters. -/
def lowerHexDigits : List Char :=
  "0123456789abcdef".data

/-- A Node.js error value as it flows through the pipeline: the platform
error code (ENOENT for a missing file, empty otherwise), the path property
carried by file-system errors, and the error name (Error until the library
renames it during classification). -/
structure NodeError where
  code : String
  path : Option String
  name : String
  deriving DecidableEq, Repr

/-- NodeCipher.Errors.BAD_FILE (lib/nodeCipher.js, NodeCipher.Errors). -/
def BAD_FILE : String := "Bad File"

/-- NodeCipher.Errors.BAD_DECRYPT (lib/nodeCipher.js, NodeCipher.Errors). -/
def BAD_DECRYPT : String := "Bad Decrypt"

/-- The ENOENT error raised when a read of the given path finds no file:
it carries the attempted path. -/
def enoentError (p : String) : NodeError :=
  ⟨"ENOENT", some p, "Error"⟩

/-- The bad-decrypt error raised by the cipher transform when the
ciphertext fails its final-block padding check. -/
def badDecryptError : NodeError :=
  ⟨"", none, "Error"⟩

/-- NodeCipher._handleStreamError classification (lib/nodeCipher.js, the
variant defining NodeCipher.Errors): an error whose code is ENOENT is
renamed BAD_FILE, any other pipeline error is renamed BAD_DECRYPT; the
validators-directory variant forwards the error unrenamed. -/
def classifyStreamError (e : NodeError) : NodeError :=
  { e with name := if e.code = "ENOENT" then BAD_FILE else BAD_DECRYPT }

/-- The two NodeCipher.Actions: ENCRYPT with method crypto.createCipher and
DECRYPT with method crypto.createDecipher. -/
inductive ActionName where
  | encrypt
  | decrypt
  deriving DecidableEq, Repr

/-- The action's method field applied to an algorithm name and a password
string, as a data transform (the update plus final sequence of the
resulting cipher object): encryption always succeeds, decryption may raise
the bad-decrypt failure. -/
def actionMethod (P : CryptoProvider) :
    ActionName → String → String → List Nat → Option (List Nat)
  | .encrypt => fun alg pw data => some (P.encryptData alg pw data)
  | .decrypt => fun alg pw data => P.decryptData alg pw data

/-- NodeCipher._deriveKeyFromOptionsSync: crypto.pbkdf2Sync applied to the
password, salt, iterations, keylen and digest options, in that order. -/
def deriveKeyFromOptionsSync (P : CryptoProvider) (o : Options) : List Nat :=
  P.pbkdf2Bytes (jsBytes o.password) (jsBytes o.salt) (jsNat o.iterations)
    (jsNat o.keylen) (jsString o.digest)

/-- NodeCipher._deriveKeyFromOptions: crypto.pbkdf2 applied to the same
five options in the same order, delivering the error-or-key pair to its
callback (after validation the digest is supported, so no error arises). -/
def deriveKeyFromOptions (P : CryptoProvider) (o : Options)
    (callback : Option NodeError → List Nat → α) : α :=
  callback none
    (P.pbkdf2Bytes (jsBytes o.password) (jsBytes o.salt) (jsNat o.iterations)
      (jsNat o.keylen) (jsString o.digest))

/-- NodeCipher._generateCipherFromOptions: the action's method applied to
the algorithm option and the derived key rendered as a hexadecimal string
(key.toString with the hex encoding). -/
def generateCipherFromOptions (P : CryptoProvider) (a : ActionName)
    (o : Options) (key : List Nat) : List Nat → Option (List Nat) :=
  actionMethod P a (jsString o.algorithm) (toHex key)

/-- A file system: a partial map from paths to file contents. -/
def FS : Type := String → Option (List Nat)

/-- Writing (creating or truncating) a file. -/
def FS.write (fs : FS) (p : String) (v : List Nat) : FS :=
  fun q => if q = p then some v else fs q

/-- Reading a file. -/
def FS.read (fs : FS) (p : String) : Option (List Nat) :=
  fs p

/-- The observable side effects of one cipher request, in order: key
derivation, opening the input for reading, creating the output file
(fs-extra createOutputStream truncate-create), and writing the output. -/
inductive Effect where
  | deriveKey
  | readFile (p : String)
  | createOutput (p : String)
  | writeFile (p : String)
  deriving DecidableEq, Repr

/-- Outcome of a synchronous cipher request: the thrown error if any, the
resulting file system, and the effects performed. -/
structure SyncOutcome where
  thrown : Option NodeError
  fs : FS
  effects : List Effect

/-- NodeCipher._cipherSync: derive the key synchronously, build the cipher
transform from the algorithm and the hex rendering of the key, read the
whole input file (throwing ENOENT when it is missing), pass it through
update plus final (throwing the bad-decrypt error when finalisation
fails), and write the complete result to the output file. Thrown errors
are classified as in the NodeCipher.Errors variant of lib/nodeCipher.js
(ENOENT becomes BAD_FILE, a transform failure becomes BAD_DECRYPT); the
validators-directory variant rethrows them unrenamed. -/
def cipherSyncRun (P : CryptoProvider) (a : ActionName) (o : Options)
    (fs : FS) : SyncOutcome :=
  let key := deriveKeyFromOptionsSync P o
  let transform := generateCipherFromOptions P a o key
  match fs.read (jsString o.input) with
  | none =>
    { thrown := some (classifyStreamError (enoentError (jsString o.input)))
      fs := fs
      effects := [.deriveKey, .readFile (jsString o.input)] }
  | some data =>
    match transform data with
    | none =>
      { thrown := some (classifyStreamError badDecryptError)
        fs := fs
        effects := [.deriveKey, .readFile (jsString o.input)] }
    | some out =>
      { thrown := none
        fs := fs.write (jsString o.output) out
        effects := [.deriveKey, .readFile (jsString o.input),
          .writeFile (jsString o.output)] }

/-- The validation error thrown or delivered for a nonempty validation
error list: an Error built from the first message
(NodeCipher._handleErrors and _handleErrorsSync). -/
def firstValidationError (errors : List VError) : NodeError :=
  ⟨"", none, (errors.headD ⟨"", ""⟩).message⟩

/-- NodeCipher._parseCipherRequestSync: merge defaults, validate, and
either throw the first validation error without performing any cipher
work, or run the synchronous cipher. -/
def parseCipherRequestSyncRun (P : CryptoProvider) (a : ActionName)
    (o : Options) (fs : FS) : SyncOutcome :=
  let opts := parseOptions o
  let errors := validateOptions P opts
  if errors.isEmpty then cipherSyncRun P a opts fs
  else { thrown := some (firstValidationError errors), fs := fs, effects := [] }

/-- NodeCipher.encryptSync. -/
def encryptSyncRun (P : CryptoProvider) (o : Options) (fs : FS) : SyncOutcome :=
  parseCipherRequestSyncRun P .encrypt o fs

/-- NodeCipher.decryptSync. -/
def decryptSyncRun (P : CryptoProvider) (o : Options) (fs : FS) : SyncOutcome :=
  parseCipherRequestSyncRun P .decrypt o fs

/-- Outcome of an asynchronous cipher request under the standard
environment (each stream delivers its single terminal event): the
sequence of arguments passed to the done callback, the resulting file
system, and the effects performed. -/
structure AsyncOutcome where
  calls : List (Option NodeError)
  fs : FS
  effects : List Effect

/-- NodeCipher._cipher under the standard environment: derive the key,
open the input read stream, create (truncate) the output file via
fs-extra createOutputStream, and pipe input through the cipher transform
into the output. A missing input file fires the read error handler, which
unpipes and reports the classified ENOENT error; a transform failure
reports the classified bad-decrypt error; otherwise the write stream
finishes after the transformed bytes are flushed and done receives null.
The output file exists (created, truncated) in every branch because
createOutputStream runs before any stream event can fire. -/
def cipherRun (P : CryptoProvider) (a : ActionName) (o : Options)
    (fs : FS) : AsyncOutcome :=
  let key := deriveKeyFromOptionsSync P o
  let transform := generateCipherFromOptions P a o key
  let fs1 := fs.write (jsString o.output) []
  let baseEffects : List Effect :=
    [.deriveKey, .readFile (jsString o.input), .createOutput (jsString o.output)]
  match fs.read (jsString o.input) with
  | none =>
    { calls := [some (classifyStreamError (enoentError (jsString o.input)))]
      fs := fs1
      effects := baseEffects }
  | some data =>
    match transform data with
    | none =>
      { calls := [some (classifyStreamError badDecryptError)]
        fs := fs1
        effects := baseEffects }
    | some out =>
      { calls := [none]
        fs := fs1.write (jsString o.output) out
        effects := baseEffects ++ [.writeFile (jsString o.output)] }

/-- NodeCipher._parseCipherRequest under the standard environment: merge
defaults, validate, and either report the first validation error to done
without performing any cipher work, or run the asynchronous cipher. -/
def parseCipherRequestRun (P : CryptoProvider) (a : ActionName) (o : Options)
    (fs : FS) : AsyncOutcome :=
  let opts := parseOptions o
  let errors := validateOptions P opts
  if errors.isEmpty then cipherRun P a opts fs
  else { calls := [some (firstValidationError errors)], fs := fs, effects := [] }

/-- NodeCipher._encrypt under the standard environment: the done
invocations reach the caller-supplied callback only when that callback is
a function (the lodash isFunction guard); otherwise they are dropped. -/
def encryptRun (P : CryptoProvider) (o : Options) (callbackIsFunction : Bool)
    (fs : FS) : AsyncOutcome :=
  let r := parseCipherRequestRun P .encrypt o fs
  { r with calls := if callbackIsFunction then r.calls else [] }

/-- NodeCipher._decrypt under the standard environment, with the same
lodash isFunction guard. -/
def decryptRun (P : CryptoProvider) (o : Options) (callbackIsFunction : Bool)
    (fs : FS) : AsyncOutcome :=
  let r := parseCipherRequestRun P .decrypt o fs
  { r with calls := if callbackIsFunction then r.calls else [] }

/-- The stream events observable by the handlers that NodeCipher._cipher
registers: an error on the read stream, the read stream being exhausted,
an error on the cipher transform, an error on the write stream, and the
write stream finishing (its buffers flushed and the file closed). -/
inductive StreamEvent where
  | readError (e : NodeError)
  | readEnd
  | cipherError (e : NodeError)
  | writeError (e : NodeError)
  | writeFinish
  deriving DecidableEq, Repr

/-- The handler wiring of NodeCipher._cipher: done invocations triggered
by one stream event. The write-stream finish handler calls done with
null; the three error handlers (read, cipher, write) each unpipe and call
done with the classified error; no handler is registered on the read
stream end event, so it triggers nothing. -/
def cipherHandlers : StreamEvent → List (Option NodeError)
  | .readError e => [some (classifyStreamError e)]
  | .readEnd => []
  | .cipherError e => [some (classifyStreamError e)]
  | .writeError e => [some (classifyStreamError e)]
  | .writeFinish => [none]

/-- The done invocations produced by NodeCipher._cipher over a whole run,
given the sequence of stream events the environment fires: each event
triggers its registered handlers in order. -/
def cipherCalls (t : List StreamEvent) : List (Option NodeError) :=
  t.flatMap cipherHandlers

/-- An event is terminal when some handler of NodeCipher._cipher invokes
done for it: the three error events and the write finish event. -/
def isTerminalEvent : StreamEvent → Bool
  | .readEnd => false
  | _ => true

/-- NodeCipher._parseCipherRequest over an event trace: a validation
failure invokes done once with the first validation error and fires no
stream machinery; otherwise the done invocations are those of the cipher
pipeline over the trace. -/
def parseCipherRequestCalls (P : CryptoProvider) (a : ActionName)
    (o : Options) (t : List StreamEvent) : List (Option NodeError) :=
  let opts := parseOptions o
  let errors := validateOptions P opts
  if errors.isEmpty then cipherCalls t
  else [some (firstValidationError errors)]

/-- NodeCipher._encrypt over an event trace: the done invocations reach
the caller's callback only when it is a function. -/
def encryptCallsWith (P : CryptoProvider) (o : Options)
    (callbackIsFunction : Bool) (t : List StreamEvent) :
    List (Option NodeError) :=
  if callbackIsFunction then parseCipherRequestCalls P .encrypt o t else []

/-- NodeCipher._decrypt over an event trace, with the same guard. -/
def decryptCallsWith (P : CryptoProvider) (o : Options)
    (callbackIsFunction : Bool) (t : List StreamEvent) :
    List (Option NodeError) :=
  if callbackIsFunction then parseCipherRequestCalls P .decrypt o t else []

/-- A heap of JavaScript options objects, addressed by reference, used to
make the in-place mutation performed by lodash defaults observable. -/
def Heap : Type := Nat → Options

/-- Overwriting the object at a reference. -/
def Heap.set (h : Heap) (r : Nat) (o : Options) : Heap :=
  fun q => if q = r then o else h q

/-- NodeCipher._parseOptions on the heap: lodash defaults mutates the
caller's object in place and returns that same object. -/
def parseOptionsMut (h : Heap) (r : Nat) : Heap × Options :=
  let merged := lodashDefaults (h r) Defaults
  (h.set r merged, merged)

/-- The heap after any of the four public entry points (encrypt, decrypt,
encryptSync, decryptSync) has run on the options object at the given
reference: each of them immediately calls NodeCipher._parseOptions on the
caller's object, so the caller's object has been merged with the defaults
in place. -/
def entryPointHeap (h : Heap) (r : Nat) : Heap :=
  (parseOptionsMut h r).1

/-- NodeCipher.encryptSync on the heap: the caller's options object is
merged with the defaults in place, then the request proceeds as usual. -/
def encryptSyncHeapRun (P : CryptoProvider) (h : Heap) (r : Nat) (fs : FS) :
    Heap × SyncOutcome :=
  (entryPointHeap h r, encryptSyncRun P (h r) fs)

/-- NodeCipher.decryptSync on the heap. -/
def decryptSyncHeapRun (P : CryptoProvider) (h : Heap) (r : Nat) (fs : FS) :
    Heap × SyncOutcome :=
  (entryPointHeap h r, decryptSyncRun P (h r) fs)

/-- NodeCipher.encrypt on the heap: the merge happens synchronously inside
NodeCipher._parseCipherRequest, before the entry point returns. -/
def encryptHeapRun (P : CryptoProvider) (h : Heap) (r : Nat)
    (callbackIsFunction : Bool) (fs : FS) : Heap × AsyncOutcome :=
  (entryPointHeap h r, encryptRun P (h r) callbackIsFunction fs)

/-- NodeCipher.decrypt on the heap. -/
def decryptHeapRun (P : CryptoProvider) (h : Heap) (r : Nat)
    (callbackIsFunction : Bool) (fs : FS) : Heap × AsyncOutcome :=
  (entryPointHeap h r, decryptRun P (h r) callbackIsFunction fs)

/-- A small concrete crypto provider used to witness the theorems on
concrete inputs: one cipher name and one digest name, a constant
two-byte HMAC, and an invertible toy data transform that prepends the
password length to the data and checks it on decryption. -/
def toyProvider : CryptoProvider :=
  { ciphers := ["cast5-cbc"]
    hashes := ["sha1"]
    hmac := fun _ key msg => [(key.sum + msg.sum) % 256, 7]
    hmacLen := fun _ => 2
    encryptData := fun _ pw data => pw.length % 256 :: data
    decryptData := fun _ pw data =>
      match data with
      | [] => none
      | b :: rest => if b = pw.length % 256 then some rest else none }

/-- The toy provider's decryption inverts its encryption for every
algorithm, password and data, as the platform cipher suite does for
matching parameters. -/
theorem toyProvider_inverts (alg pw : String) (data : List Nat) :
    toyProvider.decryptData alg pw (toyProvider.encryptData alg pw data) =
      some data := by
  simp [toyProvider]

/-- The toy provider's HMAC has constant output length two, its declared
hmacLen. -/
theorem toyProvider_hmacLen (d : String) (key msg : List Nat) :
    (toyProvider.hmac d key msg).length = toyProvider.hmacLen d := by
  simp [toyProvider]

/-- Byte-wise exclusive or preserves length on equal-length inputs. -/
theorem xorBytes_length (a b : List Nat) :
    (xorBytes a b).length = min a.length b.length :=
  List.length_zipWith _ _ _

/-- Every PBKDF2 iterate is one HMAC output block long. -/
theorem pbkdf2U_length {prf : List Nat → List Nat → List Nat} {hLen : Nat}
    (hprf : ∀ k m, (prf k m).length = hLen) (pw salt : List Nat) (blk : Nat) :
    ∀ j, (pbkdf2U prf pw salt blk j).length = hLen
  | 0 => hprf _ _
  | _ + 1 => hprf _ _

/-- Every PBKDF2 block is one HMAC output block long, for at least one
iteration. -/
theorem pbkdf2F_length {prf : List Nat → List Nat → List Nat} {hLen : Nat}
    (hprf : ∀ k m, (prf k m).length = hLen) (pw salt : List Nat) (blk : Nat)
    {c : Nat} (hc : 0 < c) :
    (pbkdf2F prf pw salt blk c).length = hLen := by
  match c, hc with
  | m + 1, _ =>
    show ((List.range m).foldl
      (fun acc j => xorBytes acc (pbkdf2U prf pw salt blk (j + 1)))
      (pbkdf2U prf pw salt blk 0)).length = hLen
    have key : ∀ (L : List Nat) (acc : List Nat), acc.length = hLen →
        (L.foldl (fun acc j => xorBytes acc (pbkdf2U prf pw salt blk (j + 1)))
          acc).length = hLen := by
      intro L
      induction L with
      | nil => intro acc hacc; simpa using hacc
      | cons x xs ih =>
        intro acc hacc
        simp only [List.foldl_cons]
        exact ih _ (by
          rw [xorBytes_length, hacc, pbkdf2U_length hprf]
          exact Nat.min_self hLen)
    exact key _ _ (pbkdf2U_length hprf pw salt blk 0)

/-- The concatenation of the first n PBKDF2 blocks is n HMAC blocks
long. -/
theorem pbkdf2_blocks_length {prf : List Nat → List Nat → List Nat}
    {hLen : Nat} (hprf : ∀ k m, (prf k m).length = hLen)
    (pw salt : List Nat) {c : Nat} (hc : 0 < c) (n : Nat) :
    (((List.range n).map (fun i => pbkdf2F prf pw salt (i + 1) c)).flatten).length
      = n * hLen := by
  induction n with
  | zero => simp
  | succ m ih =>
    rw [List.range_succ]
    simp only [List.map_append, List.map_cons, List.map_nil,
      List.flatten_append, List.length_append, ih]
    simp [pbkdf2F_length hprf _ _ _ hc, Nat.succ_mul]

/-- Ceiling-division arithmetic: the block count chosen by PBKDF2 covers
the requested key length. -/
theorem ceil_blocks_cover {keylen hLen : Nat} (hh : 0 < hLen) :
    keylen ≤ (keylen + hLen - 1) / hLen * hLen := by
  have hdm := Nat.div_add_mod (keylen + hLen - 1) hLen
  have hlt : (keylen + hLen - 1) % hLen < hLen := Nat.mod_lt _ hh
  rw [Nat.mul_comm]
  omega

/-- The PBKDF2 output is exactly keylen bytes long, for at least one
iteration and a positive HMAC block length. -/
theorem pbkdf2_length {prf : List Nat → List Nat → List Nat} {hLen : Nat}
    (hprf : ∀ k m, (prf k m).length = hLen) (hh : 0 < hLen)
    (pw salt : List Nat) {c : Nat} (hc : 0 < c) (keylen : Nat) :
    (pbkdf2 prf hLen pw salt c keylen).length = keylen := by
  unfold pbkdf2
  rw [List.length_take, pbkdf2_blocks_length hprf pw salt hc]
  exact Nat.min_eq_left (ceil_blocks_cover hh)

/-- Byte-wise exclusive or stays below 256 when both inputs do. -/
theorem xorBytes_lt {x y : List Nat} (hx : ∀ b ∈ x, b < 256)
    (hy : ∀ b ∈ y, b < 256) : ∀ b ∈ xorBytes x y, b < 256 := by
  induction x generalizing y with
  | nil => intro b hb; simp [xorBytes] at hb
  | cons a as ih =>
    cases y with
    | nil => intro b hb; simp [xorBytes] at hb
    | cons c cs =>
      intro b hb
      simp only [xorBytes, List.zipWith_cons_cons, List.mem_cons] at hb
      rcases hb with rfl | hb
      · have h1 : a < 2 ^ 8 := hx a (by simp)
        have h2 : c < 2 ^ 8 := hy c (by simp)
        exact Nat.xor_lt_two_pow h1 h2
      · exact ih (fun u hu => hx u (by simp [hu]))
          (fun u hu => hy u (by simp [hu])) b hb

/-- Every byte of a PBKDF2 iterate is below 256 when the HMAC emits
bytes. -/
theorem pbkdf2U_lt {prf : List Nat → List Nat → List Nat}
    (hprf : ∀ k m, ∀ b ∈ prf k m, b < 256) (pw salt : List Nat) (blk : Nat) :
    ∀ j, ∀ b ∈ pbkdf2U prf pw salt blk j, b < 256
  | 0 => hprf _ _
  | _ + 1 => hprf _ _

/-- Every byte of a PBKDF2 block is below 256 when the HMAC emits bytes. -/
theorem pbkdf2F_lt {prf : List Nat → List Nat → List Nat}
    (hprf : ∀ k m, ∀ b ∈ prf k m, b < 256) (pw salt : List Nat) (blk c : Nat) :
    ∀ b ∈ pbkdf2F prf pw salt blk c, b < 256 := by
  match c with
  | 0 => intro b hb; simp [pbkdf2F] at hb
  | m + 1 =>
    show ∀ b ∈ (List.range m).foldl
      (fun acc j => xorBytes acc (pbkdf2U prf pw salt blk (j + 1)))
      (pbkdf2U prf pw salt blk 0), b < 256
    have key : ∀ (L : List Nat) (acc : List Nat), (∀ b ∈ acc, b < 256) →
        ∀ b ∈ L.foldl
          (fun acc j => xorBytes acc (pbkdf2U prf pw salt blk (j + 1))) acc,
          b < 256 := by
      intro L
      induction L with
      | nil => intro acc hacc; simpa using hacc
      | cons x xs ih =>
        intro acc hacc
        simp only [List.foldl_cons]
        exact ih _ (xorBytes_lt hacc (pbkdf2U_lt hprf pw salt blk (x + 1)))
    exact key _ _ (pbkdf2U_lt hprf pw salt blk 0)

/-- Every byte of the PBKDF2 output is below 256 when the HMAC emits
bytes. -/
theorem pbkdf2_lt {prf : List Nat → List Nat → List Nat} {hLen : Nat}
    (hprf : ∀ k m, ∀ b ∈ prf k m, b < 256) (pw salt : List Nat)
    (c keylen : Nat) : ∀ b ∈ pbkdf2 prf hLen pw salt c keylen, b < 256 := by
  intro b hb
  unfold pbkdf2 at hb
  have hb' := List.mem_of_mem_take hb
  rw [List.mem_flatten] at hb'
  obtain ⟨l, hl, hbl⟩ := hb'
  rw [List.mem_map] at hl
  obtain ⟨i, _, rfl⟩ := hl
  exact pbkdf2F_lt hprf pw salt (i + 1) c b hbl

/-- Every nibble renders to one of the sixteen lowercase hexadecimal
digits. -/
theorem hexDigit_mem_lowerHexDigits {n : Nat} (h : n < 16) :
    hexDigit n ∈ lowerHexDigits := by
  interval_cases n <;> decide

/-- Decoding inverts encoding on a single nibble. -/
theorem hexVal_hexDigit {n : Nat} (h : n < 16) : hexVal (hexDigit n) = n := by
  interval_cases n <;> decide

/-- The hexadecimal rendering is two characters per byte. -/
theorem toHexChars_length (bytes : List Nat) :
    (toHexChars bytes).length = 2 * bytes.length := by
  induction bytes with
  | nil => rfl
  | cons b bs ih =>
    simp only [toHexChars, List.foldr_cons, List.length_cons]
    simp only [toHexChars] at ih
    omega

/-- Every character of the hexadecimal rendering is a lowercase
hexadecimal digit. -/
theorem toHexChars_mem (bytes : List Nat) :
    ∀ c ∈ toHexChars bytes, c ∈ lowerHexDigits := by
  induction bytes with
  | nil => intro c hc; simp [toHexChars] at hc
  | cons b bs ih =>
    intro c hc
    simp only [toHexChars, List.foldr_cons, List.mem_cons] at hc
    rcases hc with rfl | rfl | hc
    · exact hexDigit_mem_lowerHexDigits (Nat.mod_lt _ (by omega))
    · exact hexDigit_mem_lowerHexDigits (Nat.mod_lt _ (by omega))
    · exact ih c hc

/-- Decoding the hexadecimal rendering of a byte string recovers the byte
string: the rendering is a faithful representation of the key bytes. -/
theorem fromHexChars_toHexChars {bytes : List Nat}
    (h : ∀ b ∈ bytes, b < 256) : fromHexChars (toHexChars bytes) = bytes := by
  induction bytes with
  | nil => rfl
  | cons b bs ih =>
    have hb : b < 256 := h b (by simp)
    have hhi : b / 16 % 16 = b / 16 := Nat.mod_eq_of_lt (by omega)
    simp only [toHexChars, List.foldr_cons]
    show (16 * hexVal (hexDigit (b / 16 % 16)) + hexVal (hexDigit (b % 16))) ::
      fromHexChars (toHexChars bs) = b :: bs
    rw [hexVal_hexDigit (Nat.mod_lt _ (by omega)),
      hexVal_hexDigit (Nat.mod_lt _ (by omega)),
      ih (fun u hu => h u (by simp [hu]))]
    congr 1
    omega

/-- Reading the path just written yields the written content. -/
theorem FS.read_write_self (fs : FS) (p : String) (v : List Nat) :
    (fs.write p v).read p = some v := by
  simp [FS.write, FS.read]

/-- A fully supplied valid options object used by the witnesses. -/
def sampleOpts : Options :=
  { input := .str "in.txt"
    output := .str "out.txt"
    password := .str "p"
    salt := .str "s"
    iterations := .num 1
    keylen := .num 1
    digest := .str "sha1"
    algorithm := .str "cast5-cbc" }

/-- The second request of the witness round trip: it reads the first
request's output file and shares all six cipher parameters with it. -/
def sampleOptsBack : Options :=
  { sampleOpts with input := .str "out.txt", output := .str "back.txt" }

/-- An options object missing its password, used to witness validation
failures. -/
def invalidOpts : Options :=
  { sampleOpts with password := .undef }

/-- The empty file system. -/
def emptyFS : FS := fun _ => none

/-- A file system holding only the witness input file. -/
def sampleFS : FS :=
  fun p => if p = "in.txt" then some [1, 2, 3] else none

/-- C1: for every valid request and every input file content, encrypting
the content with parameters password, salt, iterations, keylen, digest and
algorithm and then decrypting the resulting output file with the identical
six parameters yields exactly the original content, provided the platform
cipher suite inverts its own encryption under matching algorithm and
password string. -/
theorem encrypt_then_decrypt_roundtrip (P : CryptoProvider)
    (hinv : ∀ alg pw data,
      P.decryptData alg pw (P.encryptData alg pw data) = some data)
    (o1 o2 : Options) (fs : FS) (content : List Nat)
    (hv1 : validateOptions P (parseOptions o1) = [])
    (hv2 : validateOptions P (parseOptions o2) = [])
    (hpw : (parseOptions o2).password = (parseOptions o1).password)
    (hsalt : (parseOptions o2).salt = (parseOptions o1).salt)
    (hiter : (parseOptions o2).iterations = (parseOptions o1).iterations)
    (hklen : (parseOptions o2).keylen = (parseOptions o1).keylen)
    (hdig : (parseOptions o2).digest = (parseOptions o1).digest)
    (halg : (parseOptions o2).algorithm = (parseOptions o1).algorithm)
    (hio : (parseOptions o2).input = (parseOptions o1).output)
    (hin : fs.read (jsString (parseOptions o1).input) = some content) :
    (encryptSyncRun P o1 fs).thrown = none ∧
    (decryptSyncRun P o2 (encryptSyncRun P o1 fs).fs).thrown = none ∧
    (decryptSyncRun P o2 (encryptSyncRun P o1 fs).fs).fs.read
      (jsString (parseOptions o2).output) = some content := by
  have hkey : deriveKeyFromOptionsSync P (parseOptions o2) =
      deriveKeyFromOptionsSync P (parseOptions o1) := by
    unfold deriveKeyFromOptionsSync
    rw [hpw, hsalt, hiter, hklen, hdig]
  have henc : encryptSyncRun P o1 fs =
      cipherSyncRun P .encrypt (parseOptions o1) fs := by
    simp [encryptSyncRun, parseCipherRequestSyncRun, hv1]
  have hdec : ∀ g : FS, decryptSyncRun P o2 g =
      cipherSyncRun P .decrypt (parseOptions o2) g := by
    intro g
    simp [decryptSyncRun, parseCipherRequestSyncRun, hv2]
  rw [henc, hdec]
  unfold cipherSyncRun
  rw [hin]
  simp only [generateCipherFromOptions, actionMethod]
  rw [hio, FS.read_write_self]
  rw [hkey, halg]
  simp [hinv, FS.read_write_self]

/-- Witness for C1: a concrete round trip through the toy provider
recovers the content of the input file. -/
theorem encrypt_then_decrypt_roundtrip_witness :
    validateOptions toyProvider (parseOptions sampleOpts) = [] ∧
    validateOptions toyProvider (parseOptions sampleOptsBack) = [] ∧
    sampleFS.read (jsString (parseOptions sampleOpts).input) = some [1, 2, 3] ∧
    ((encryptSyncRun toyProvider sampleOpts sampleFS).thrown = none ∧
      (decryptSyncRun toyProvider sampleOptsBack
        (encryptSyncRun toyProvider sampleOpts sampleFS).fs).thrown = none ∧
      (decryptSyncRun toyProvider sampleOptsBack
        (encryptSyncRun toyProvider sampleOpts sampleFS).fs).fs.read
        (jsString (parseOptions sampleOptsBack).output) = some [1, 2, 3]) :=
  ⟨by decide, by decide, by decide,
    encrypt_then_decrypt_roundtrip toyProvider
      (fun alg pw data => toyProvider_inverts alg pw data)
      sampleOpts sampleOptsBack sampleFS [1, 2, 3]
      (by decide) (by decide) rfl rfl rfl rfl rfl rfl rfl (by decide)⟩

/-- C2: key derivation is deterministic: for iterations at least one and a
supported digest with a positive HMAC block length, the derived key is a
byte string of exactly keylen bytes, it depends only on the password,
salt, iterations, keylen and digest options (so identical inputs give
identical keys across repeated calls), and the asynchronous derivation
delivers to its callback byte for byte the key the synchronous derivation
returns. -/
theorem deriveKey_deterministic_length_sync_async (P : CryptoProvider)
    (o : Options)
    (hprf : ∀ key msg, (P.hmac (jsString o.digest) key msg).length =
      P.hmacLen (jsString o.digest))
    (hpos : 0 < P.hmacLen (jsString o.digest))
    (hiter : 1 ≤ jsNat o.iterations)
    (hklen : 1 ≤ jsNat o.keylen) :
    (deriveKeyFromOptionsSync P o).length = jsNat o.keylen ∧
    deriveKeyFromOptions P o (fun e k => (e, k)) =
      (none, deriveKeyFromOptionsSync P o) ∧
    (∀ o' : Options, o'.password = o.password → o'.salt = o.salt →
      o'.iterations = o.iterations → o'.keylen = o.keylen →
      o'.digest = o.digest →
      deriveKeyFromOptionsSync P o' = deriveKeyFromOptionsSync P o) := by
  refine ⟨?_, rfl, ?_⟩
  · unfold deriveKeyFromOptionsSync CryptoProvider.pbkdf2Bytes
    exact pbkdf2_length hprf hpos _ _ hiter _
  · intro o' h1 h2 h3 h4 h5
    unfold deriveKeyFromOptionsSync
    rw [h1, h2, h3, h4, h5]

/-- Witness for C2: the toy provider derives a one-byte key from the
sample options, and the asynchronous variant delivers the same key. -/
theorem deriveKey_deterministic_length_sync_async_witness :
    (∀ key msg, (toyProvider.hmac (jsString sampleOpts.digest) key msg).length =
      toyProvider.hmacLen (jsString sampleOpts.digest)) ∧
    0 < toyProvider.hmacLen (jsString sampleOpts.digest) ∧
    1 ≤ jsNat sampleOpts.iterations ∧
    1 ≤ jsNat sampleOpts.keylen ∧
    ((deriveKeyFromOptionsSync toyProvider sampleOpts).length =
        jsNat sampleOpts.keylen ∧
      deriveKeyFromOptions toyProvider sampleOpts (fun e k => (e, k)) =
        (none, deriveKeyFromOptionsSync toyProvider sampleOpts) ∧
      (∀ o' : Options, o'.password = sampleOpts.password →
        o'.salt = sampleOpts.salt → o'.iterations = sampleOpts.iterations →
        o'.keylen = sampleOpts.keylen → o'.digest = sampleOpts.digest →
        deriveKeyFromOptionsSync toyProvider o' =
          deriveKeyFromOptionsSync toyProvider sampleOpts)) :=
  ⟨fun key msg => toyProvider_hmacLen _ key msg, by decide, by decide, by decide,
    deriveKey_deterministic_length_sync_async toyProvider sampleOpts
      (fun key msg => toyProvider_hmacLen _ key msg) (by decide) (by decide)
      (by decide)⟩

/-- Success invocations of done correspond one to one to write-stream
finish events in the handler wiring of NodeCipher._cipher. -/
theorem cipherCalls_count_none (t : List StreamEvent) :
    (cipherCalls t).count none = t.count .writeFinish := by
  induction t with
  | nil => rfl
  | cons e es ih =>
    show (cipherHandlers e ++ cipherCalls es).count none = _
    rw [List.count_append, ih, List.count_cons]
    cases e <;> simp [cipherHandlers] <;> omega

/-- Each stream event triggers exactly one done invocation when it is
terminal and none otherwise. -/
theorem cipherCalls_length (t : List StreamEvent) :
    (cipherCalls t).length = t.countP (fun e => isTerminalEvent e) := by
  induction t with
  | nil => rfl
  | cons e es ih =>
    show (cipherHandlers e ++ cipherCalls es).length = _
    rw [List.length_append, ih, List.countP_cons]
    cases e <;> simp [cipherHandlers, isTerminalEvent] <;> omega

/-- C3: for every asynchronous encrypt or decrypt operation on a valid
request, the completion callback receives success exactly once per
write-stream finish event, never merely because the read stream was
exhausted: no handler is registered on the read-stream end event, and
the write-stream finish handler is the only one invoking done with
null. -/
theorem async_success_only_on_write_finish (P : CryptoProvider) (o : Options)
    (t : List StreamEvent)
    (hv : validateOptions P (parseOptions o) = []) :
    (encryptCallsWith P o true t).count none = t.count .writeFinish ∧
    (decryptCallsWith P o true t).count none = t.count .writeFinish ∧
    cipherHandlers .readEnd = [] ∧
    cipherHandlers .writeFinish = [none] := by
  refine ⟨?_, ?_, rfl, rfl⟩ <;>
    simp [encryptCallsWith, decryptCallsWith, parseCipherRequestCalls, hv,
      cipherCalls_count_none]

/-- Witness for C3: over a trace in which the read stream ends and errors
fire but the write stream never finishes, no success is delivered; a
trace with one finish delivers exactly one success. -/
theorem async_success_only_on_write_finish_witness :
    validateOptions toyProvider (parseOptions sampleOpts) = [] ∧
    ((encryptCallsWith toyProvider sampleOpts true
        [StreamEvent.readEnd, StreamEvent.writeFinish]).count none =
      ([StreamEvent.readEnd, StreamEvent.writeFinish] : List StreamEvent).count
        StreamEvent.writeFinish ∧
    (decryptCallsWith toyProvider sampleOpts true
        [StreamEvent.readEnd, StreamEvent.writeFinish]).count none =
      ([StreamEvent.readEnd, StreamEvent.writeFinish] : List StreamEvent).count
        StreamEvent.writeFinish ∧
    cipherHandlers .readEnd = [] ∧
    cipherHandlers .writeFinish = [none]) :=
  ⟨by decide,
    async_success_only_on_write_finish toyProvider sampleOpts
      [StreamEvent.readEnd, StreamEvent.writeFinish] (by decide)⟩

/-- Counterexample to C4: NodeCipher._cipher installs three independent
error handlers and no single-invocation guard, so a run of a valid
request in which both a read error and a write error fire (for example a
missing input file together with an unwritable output path) invokes the
completion callback twice, not exactly once. -/
theorem async_callback_twice_cex :
    validateOptions toyProvider (parseOptions sampleOpts) = [] ∧
    ¬ (encryptCallsWith toyProvider sampleOpts true
        [StreamEvent.readError (enoentError "in.txt"),
          StreamEvent.writeError ⟨"EACCES", some "out.txt", "Error"⟩]).length
      = 1 ∧
    (encryptCallsWith toyProvider sampleOpts true
        [StreamEvent.readError (enoentError "in.txt"),
          StreamEvent.writeError ⟨"EACCES", some "out.txt", "Error"⟩]).length
      = 2 := by
  refine ⟨by decide, by decide, by decide⟩

/-- C4 as amended: the completion callback is invoked once for every
terminal stream event (error or finish) of the run, hence exactly once
whenever exactly one terminal event fires, and exactly once on a
validation failure; the code has no guard against multiple terminal
events, so runs with several of them invoke the callback several
times. -/
theorem async_callback_once_per_terminal_event (P : CryptoProvider)
    (o : Options) (t : List StreamEvent) :
    (validateOptions P (parseOptions o) ≠ [] →
      (encryptCallsWith P o true t).length = 1 ∧
      (decryptCallsWith P o true t).length = 1) ∧
    (validateOptions P (parseOptions o) = [] →
      (encryptCallsWith P o true t).length =
        t.countP (fun e => isTerminalEvent e) ∧
      (decryptCallsWith P o true t).length =
        t.countP (fun e => isTerminalEvent e)) := by
  constructor
  · intro hv
    have : (validateOptions P (parseOptions o)).isEmpty = false := by
      cases h : validateOptions P (parseOptions o) with
      | nil => exact absurd h hv
      | cons a l => rfl
    constructor <;>
      simp [encryptCallsWith, decryptCallsWith, parseCipherRequestCalls, this]
  · intro hv
    constructor <;>
      simp [encryptCallsWith, decryptCallsWith, parseCipherRequestCalls, hv,
        cipherCalls_length]

/-- Witness for the amended C4: a run with exactly one terminal event
(the write finish) invokes the callback exactly once, and an invalid
request invokes it exactly once. -/
theorem async_callback_once_per_terminal_event_witness :
    ((validateOptions toyProvider (parseOptions invalidOpts) ≠ [] →
      (encryptCallsWith toyProvider invalidOpts true
        [StreamEvent.readEnd, StreamEvent.writeFinish]).length = 1 ∧
      (decryptCallsWith toyProvider invalidOpts true
        [StreamEvent.readEnd, StreamEvent.writeFinish]).length = 1) ∧
    (validateOptions toyProvider (parseOptions invalidOpts) = [] →
      (encryptCallsWith toyProvider invalidOpts true
        [StreamEvent.readEnd, StreamEvent.writeFinish]).length =
        List.countP (fun e => isTerminalEvent e)
          [StreamEvent.readEnd, StreamEvent.writeFinish] ∧
      (decryptCallsWith toyProvider invalidOpts true
        [StreamEvent.readEnd, StreamEvent.writeFinish]).length =
        List.countP (fun e => isTerminalEvent e)
          [StreamEvent.readEnd, StreamEvent.writeFinish])) ∧
    validateOptions toyProvider (parseOptions invalidOpts) ≠ [] :=
  ⟨async_callback_once_per_terminal_event toyProvider invalidOpts
    [StreamEvent.readEnd, StreamEvent.writeFinish], by decide⟩

/-- Counterexample to C5: encrypting with a missing input file does report
the classified BAD_FILE error carrying the attempted path, but the output
file, absent beforehand, has been created (truncated to empty), because
NodeCipher._cipher opens the output stream with fs-extra
createOutputStream before the read error can fire. -/
theorem missing_input_creates_output_cex :
    emptyFS.read "out.txt" = none ∧
    (encryptRun toyProvider sampleOpts true emptyFS).calls =
      [some ⟨"ENOENT", some "in.txt", BAD_FILE⟩] ∧
    (encryptRun toyProvider sampleOpts true emptyFS).fs.read "out.txt" =
      some [] := by
  refine ⟨rfl, by decide, by decide⟩

/-- C5 as amended: for every valid request whose input path names no
file, the asynchronous operation reports the BAD_FILE error carrying the
attempted input path, but the output file is created and truncated to
empty by the output stream opened before the read error fires. -/
theorem missing_input_bad_file_and_truncated_output (P : CryptoProvider)
    (o : Options) (fs : FS)
    (hv : validateOptions P (parseOptions o) = [])
    (hmiss : fs.read (jsString (parseOptions o).input) = none) :
    (encryptRun P o true fs).calls =
      [some ⟨"ENOENT", some (jsString (parseOptions o).input), BAD_FILE⟩] ∧
    (encryptRun P o true fs).fs.read (jsString (parseOptions o).output) =
      some [] ∧
    (decryptRun P o true fs).calls =
      [some ⟨"ENOENT", some (jsString (parseOptions o).input), BAD_FILE⟩] ∧
    (decryptRun P o true fs).fs.read (jsString (parseOptions o).output) =
      some [] := by
  refine ⟨?_, ?_, ?_, ?_⟩ <;>
    simp [encryptRun, decryptRun, parseCipherRequestRun, hv, cipherRun, hmiss,
      classifyStreamError, enoentError, FS.read_write_self]

/-- Witness for the amended C5: the concrete missing-input run through the
toy provider. -/
theorem missing_input_bad_file_and_truncated_output_witness :
    validateOptions toyProvider (parseOptions sampleOpts) = [] ∧
    emptyFS.read (jsString (parseOptions sampleOpts).input) = none ∧
    ((encryptRun toyProvider sampleOpts true emptyFS).calls =
      [some ⟨"ENOENT", some (jsString (parseOptions sampleOpts).input),
        BAD_FILE⟩] ∧
    (encryptRun toyProvider sampleOpts true emptyFS).fs.read
      (jsString (parseOptions sampleOpts).output) = some [] ∧
    (decryptRun toyProvider sampleOpts true emptyFS).calls =
      [some ⟨"ENOENT", some (jsString (parseOptions sampleOpts).input),
        BAD_FILE⟩] ∧
    (decryptRun toyProvider sampleOpts true emptyFS).fs.read
      (jsString (parseOptions sampleOpts).output) = some []) :=
  ⟨by decide, rfl,
    missing_input_bad_file_and_truncated_output toyProvider sampleOpts emptyFS
      (by decide) rfl⟩

/-- C6: for every request failing validation, all four entry points report
a validation error (built from the first violated rule) while performing
no side effect at all: no key derivation, no file opened for reading, no
output file created or written, and the file system left untouched. -/
theorem validation_failure_no_side_effects (P : CryptoProvider) (o : Options)
    (fs : FS) (hv : validateOptions P (parseOptions o) ≠ []) :
    ((encryptRun P o true fs).calls =
      [some (firstValidationError (validateOptions P (parseOptions o)))] ∧
      (encryptRun P o true fs).effects = [] ∧
      (encryptRun P o true fs).fs = fs) ∧
    ((decryptRun P o true fs).calls =
      [some (firstValidationError (validateOptions P (parseOptions o)))] ∧
      (decryptRun P o true fs).effects = [] ∧
      (decryptRun P o true fs).fs = fs) ∧
    ((encryptSyncRun P o fs).thrown =
      some (firstValidationError (validateOptions P (parseOptions o))) ∧
      (encryptSyncRun P o fs).effects = [] ∧
      (encryptSyncRun P o fs).fs = fs) ∧
    ((decryptSyncRun P o fs).thrown =
      some (firstValidationError (validateOptions P (parseOptions o))) ∧
      (decryptSyncRun P o fs).effects = [] ∧
      (decryptSyncRun P o fs).fs = fs) := by
  have hne : (validateOptions P (parseOptions o)).isEmpty = false := by
    cases h : validateOptions P (parseOptions o) with
    | nil => exact absurd h hv
    | cons a l => rfl
  refine ⟨⟨?_, ?_, ?_⟩, ⟨?_, ?_, ?_⟩, ⟨?_, ?_, ?_⟩, ⟨?_, ?_, ?_⟩⟩ <;>
    simp [encryptRun, decryptRun, encryptSyncRun, decryptSyncRun,
      parseCipherRequestRun, parseCipherRequestSyncRun, hne]

/-- Witness for C6: the password-less request is rejected by all four
entry points with no effect on the file system. -/
theorem validation_failure_no_side_effects_witness :
    validateOptions toyProvider (parseOptions invalidOpts) ≠ [] ∧
    (((encryptRun toyProvider invalidOpts true sampleFS).calls =
      [some (firstValidationError
        (validateOptions toyProvider (parseOptions invalidOpts)))] ∧
      (encryptRun toyProvider invalidOpts true sampleFS).effects = [] ∧
      (encryptRun toyProvider invalidOpts true sampleFS).fs = sampleFS) ∧
    ((decryptRun toyProvider invalidOpts true sampleFS).calls =
      [some (firstValidationError
        (validateOptions toyProvider (parseOptions invalidOpts)))] ∧
      (decryptRun toyProvider invalidOpts true sampleFS).effects = [] ∧
      (decryptRun toyProvider invalidOpts true sampleFS).fs = sampleFS) ∧
    ((encryptSyncRun toyProvider invalidOpts sampleFS).thrown =
      some (firstValidationError
        (validateOptions toyProvider (parseOptions invalidOpts))) ∧
      (encryptSyncRun toyProvider invalidOpts sampleFS).effects = [] ∧
      (encryptSyncRun toyProvider invalidOpts sampleFS).fs = sampleFS) ∧
    ((decryptSyncRun toyProvider invalidOpts sampleFS).thrown =
      some (firstValidationError
        (validateOptions toyProvider (parseOptions invalidOpts))) ∧
      (decryptSyncRun toyProvider invalidOpts sampleFS).effects = [] ∧
      (decryptSyncRun toyProvider invalidOpts sampleFS).fs = sampleFS)) :=
  ⟨by decide,
    validation_failure_no_side_effects toyProvider invalidOpts sampleFS
      (by decide)⟩

/-- The toy provider's HMAC emits bytes. -/
theorem toyProvider_hmac_lt (d : String) (k m : List Nat) :
    ∀ b ∈ toyProvider.hmac d k m, b < 256 := by
  intro b hb
  simp [toyProvider] at hb
  rcases hb with rfl | rfl
  · exact Nat.mod_lt _ (by omega)
  · omega

/-- Every byte of a derived key is below 256 when the digest's HMAC emits
bytes. -/
theorem deriveKey_bytes_lt (P : CryptoProvider) (o : Options)
    (hprf : ∀ k m, ∀ b ∈ P.hmac (jsString o.digest) k m, b < 256) :
    ∀ b ∈ deriveKeyFromOptionsSync P o, b < 256 := by
  unfold deriveKeyFromOptionsSync CryptoProvider.pbkdf2Bytes
  exact pbkdf2_lt hprf _ _ _ _

/-- C7: for every valid request, both the streaming and the synchronous
pipeline construct the cipher transform by handing the algorithm name
together with the PBKDF2-derived key rendered as its lowercase
hexadecimal string to the platform's password-based cipher constructor:
the file each pipeline writes is the output of that transform, and the
rendered key string has two characters per key byte, consists only of
lowercase hexadecimal digits, and decodes back to the derived key byte
for byte. -/
theorem cipher_transform_uses_hex_of_derived_key (P : CryptoProvider)
    (a : ActionName) (o : Options)
    (hprf : ∀ k m, ∀ b ∈ P.hmac (jsString (parseOptions o).digest) k m, b < 256)
    (hv : validateOptions P (parseOptions o) = []) :
    (∀ fs data out, fs.read (jsString (parseOptions o).input) = some data →
      actionMethod P a (jsString (parseOptions o).algorithm)
        (toHex (deriveKeyFromOptionsSync P (parseOptions o))) data = some out →
      (parseCipherRequestSyncRun P a o fs).thrown = none ∧
      (parseCipherRequestSyncRun P a o fs).fs.read
        (jsString (parseOptions o).output) = some out ∧
      (parseCipherRequestRun P a o fs).calls = [none] ∧
      (parseCipherRequestRun P a o fs).fs.read
        (jsString (parseOptions o).output) = some out) ∧
    (toHex (deriveKeyFromOptionsSync P (parseOptions o))).data.length =
      2 * (deriveKeyFromOptionsSync P (parseOptions o)).length ∧
    (∀ c ∈ (toHex (deriveKeyFromOptionsSync P (parseOptions o))).data,
      c ∈ lowerHexDigits) ∧
    fromHexChars (toHex (deriveKeyFromOptionsSync P (parseOptions o))).data =
      deriveKeyFromOptionsSync P (parseOptions o) := by
  refine ⟨?_, toHexChars_length _, toHexChars_mem _,
    fromHexChars_toHexChars (deriveKey_bytes_lt P (parseOptions o) hprf)⟩
  intro fs data out hread htrans
  have hgen : generateCipherFromOptions P a (parseOptions o)
      (deriveKeyFromOptionsSync P (parseOptions o)) data = some out := htrans
  refine ⟨?_, ?_, ?_, ?_⟩ <;>
    simp [parseCipherRequestSyncRun, parseCipherRequestRun, hv, cipherSyncRun,
      cipherRun, hread, hgen, FS.read_write_self]

/-- Witness for C7: the concrete encryption run through the toy provider,
whose one-byte derived key renders to a two-character lowercase
hexadecimal string. -/
theorem cipher_transform_uses_hex_of_derived_key_witness :
    (∀ k m, ∀ b ∈ toyProvider.hmac
      (jsString (parseOptions sampleOpts).digest) k m, b < 256) ∧
    validateOptions toyProvider (parseOptions sampleOpts) = [] ∧
    ((∀ fs data out,
      fs.read (jsString (parseOptions sampleOpts).input) = some data →
      actionMethod toyProvider .encrypt
        (jsString (parseOptions sampleOpts).algorithm)
        (toHex (deriveKeyFromOptionsSync toyProvider (parseOptions sampleOpts)))
        data = some out →
      (parseCipherRequestSyncRun toyProvider .encrypt sampleOpts fs).thrown =
        none ∧
      (parseCipherRequestSyncRun toyProvider .encrypt sampleOpts fs).fs.read
        (jsString (parseOptions sampleOpts).output) = some out ∧
      (parseCipherRequestRun toyProvider .encrypt sampleOpts fs).calls =
        [none] ∧
      (parseCipherRequestRun toyProvider .encrypt sampleOpts fs).fs.read
        (jsString (parseOptions sampleOpts).output) = some out) ∧
    (toHex (deriveKeyFromOptionsSync toyProvider
      (parseOptions sampleOpts))).data.length =
      2 * (deriveKeyFromOptionsSync toyProvider
        (parseOptions sampleOpts)).length ∧
    (∀ c ∈ (toHex (deriveKeyFromOptionsSync toyProvider
      (parseOptions sampleOpts))).data, c ∈ lowerHexDigits) ∧
    fromHexChars (toHex (deriveKeyFromOptionsSync toyProvider
      (parseOptions sampleOpts))).data =
      deriveKeyFromOptionsSync toyProvider (parseOptions sampleOpts)) :=
  ⟨fun k m => toyProvider_hmac_lt _ k m, by decide,
    cipher_transform_uses_hex_of_derived_key toyProvider .encrypt sampleOpts
      (fun k m => toyProvider_hmac_lt _ k m) (by decide)⟩

/-- The asynchronous pipeline under the standard environment always
invokes done exactly once. -/
theorem cipherRun_calls_length (P : CryptoProvider) (a : ActionName)
    (o : Options) (fs : FS) : (cipherRun P a o fs).calls.length = 1 := by
  simp only [cipherRun]
  split
  · rfl
  · split <;> rfl

/-- Counterexample to C8: when the optional callback argument is omitted
or is not a function, the lodash isFunction guard in NodeCipher._encrypt
drops every failure silently: an invalid request and a missing-input run
both produce no notification whatsoever. -/
theorem omitted_callback_swallows_failure_cex :
    validateOptions toyProvider (parseOptions invalidOpts) ≠ [] ∧
    encryptCallsWith toyProvider invalidOpts false [] = [] ∧
    (encryptRun toyProvider invalidOpts false sampleFS).calls = [] ∧
    emptyFS.read (jsString (parseOptions sampleOpts).input) = none ∧
    (encryptRun toyProvider sampleOpts false emptyFS).calls = [] := by
  refine ⟨by decide, by decide, by decide, rfl, by decide⟩

/-- C8 as amended: when the caller supplies a function callback, every
failure of an asynchronous operation is delivered through it (exactly one
invocation per run under the standard environment, and the validation
error is delivered verbatim); when the callback is omitted or not a
function, the done invocations are dropped and no failure reaches the
caller. -/
theorem async_failures_delivered_iff_callback_function (P : CryptoProvider)
    (o : Options) (fs : FS) (t : List StreamEvent) :
    ((encryptRun P o true fs).calls.length = 1 ∧
      (decryptRun P o true fs).calls.length = 1) ∧
    ((encryptRun P o false fs).calls = [] ∧
      (decryptRun P o false fs).calls = []) ∧
    (validateOptions P (parseOptions o) ≠ [] →
      encryptCallsWith P o true t =
        [some (firstValidationError (validateOptions P (parseOptions o)))] ∧
      decryptCallsWith P o true t =
        [some (firstValidationError (validateOptions P (parseOptions o)))]) := by
  have hlen : ∀ a, (parseCipherRequestRun P a o fs).calls.length = 1 := by
    intro a
    simp only [parseCipherRequestRun]
    split
    · exact cipherRun_calls_length P a (parseOptions o) fs
    · rfl
  refine ⟨⟨?_, ?_⟩, ⟨rfl, rfl⟩, ?_⟩
  · simpa [encryptRun] using hlen .encrypt
  · simpa [decryptRun] using hlen .decrypt
  · intro hv
    have hne : (validateOptions P (parseOptions o)).isEmpty = false := by
      cases h : validateOptions P (parseOptions o) with
      | nil => exact absurd h hv
      | cons a l => rfl
    constructor <;>
      simp [encryptCallsWith, decryptCallsWith, parseCipherRequestCalls, hne]

/-- Witness for the amended C8: the concrete invalid request is delivered
exactly once through a function callback and dropped without one. -/
theorem async_failures_delivered_iff_callback_function_witness :
    (((encryptRun toyProvider invalidOpts true sampleFS).calls.length = 1 ∧
      (decryptRun toyProvider invalidOpts true sampleFS).calls.length = 1) ∧
    ((encryptRun toyProvider invalidOpts false sampleFS).calls = [] ∧
      (decryptRun toyProvider invalidOpts false sampleFS).calls = []) ∧
    (validateOptions toyProvider (parseOptions invalidOpts) ≠ [] →
      encryptCallsWith toyProvider invalidOpts true [] =
        [some (firstValidationError
          (validateOptions toyProvider (parseOptions invalidOpts)))] ∧
      decryptCallsWith toyProvider invalidOpts true [] =
        [some (firstValidationError
          (validateOptions toyProvider (parseOptions invalidOpts)))])) ∧
    validateOptions toyProvider (parseOptions invalidOpts) ≠ [] :=
  ⟨async_failures_delivered_iff_callback_function toyProvider invalidOpts
    sampleFS [], by decide⟩

/-- Every input-validator error names the input option. -/
theorem validateInput_option (v : JSValue) :
    ∀ e ∈ validateInput v, e.option = "input" := by
  unfold validateInput
  intro e he
  rcases List.mem_append.mp he with h | h <;> split at h <;> simp_all

/-- Every output-validator error names the output option. -/
theorem validateOutput_option (v : JSValue) :
    ∀ e ∈ validateOutput v, e.option = "output" := by
  unfold validateOutput
  intro e he
  rcases List.mem_append.mp he with h | h <;> split at h <;> simp_all

/-- Every password-validator error names the password option. -/
theorem validatePassword_option (v : JSValue) :
    ∀ e ∈ validatePassword v, e.option = "password" := by
  unfold validatePassword
  intro e he
  rcases List.mem_append.mp he with h | h <;> split at h <;> simp_all

/-- Every salt-validator error names the salt option. -/
theorem validateSalt_option (v : JSValue) :
    ∀ e ∈ validateSalt v, e.option = "salt" := by
  unfold validateSalt
  intro e he
  rcases List.mem_append.mp he with h | h <;> split at h <;> simp_all

/-- Every iterations-validator error names the iterations option. -/
theorem validateIterations_option (v : JSValue) :
    ∀ e ∈ validateIterations v, e.option = "iterations" := by
  unfold validateIterations
  intro e he
  rcases List.mem_append.mp he with h | h <;> split at h <;> simp_all

/-- Every keylen-validator error names the keylen option. -/
theorem validateKeylen_option (v : JSValue) :
    ∀ e ∈ validateKeylen v, e.option = "keylen" := by
  unfold validateKeylen
  intro e he
  rcases List.mem_append.mp he with h | h <;> split at h <;> simp_all

/-- Every digest-validator error names the digest option. -/
theorem validateDigest_option (P : CryptoProvider) (v : JSValue) :
    ∀ e ∈ validateDigest P v, e.option = "digest" := by
  unfold validateDigest
  intro e he
  split at he
  · simp_all
  · split at he
    · simp_all
    · split at he <;> simp_all

/-- Every algorithm-validator error names the algorithm option. -/
theorem validateAlgorithm_option (P : CryptoProvider) (v : JSValue) :
    ∀ e ∈ validateAlgorithm P v, e.option = "algorithm" := by
  unfold validateAlgorithm
  intro e he
  split at he
  · simp_all
  · split at he
    · simp_all
    · split at he <;> simp_all

/-- C9: validation accepts every string salt and every Buffer salt and
produces no salt-related error for them; an unset salt or a salt of any
other type yields a salt validation error. The salt-related part of the
whole validation result is exactly the salt validator's output. -/
theorem salt_validation_accepts_string_or_buffer (P : CryptoProvider)
    (o : Options) :
    (∀ s, validateSalt (.str s) = []) ∧
    (∀ b, validateSalt (.buf b) = []) ∧
    (∀ v, validateSalt v = [] ↔ (isString v = true ∨ isBuffer v = true)) ∧
    (validateOptions P o).filter (fun e => e.option == "salt") =
      validateSalt o.salt := by
  refine ⟨fun s => rfl, fun b => rfl, ?_, ?_⟩
  · intro v
    cases v <;> simp [validateSalt, isUndefined, isString, isBuffer]
  · have hnil : ∀ (l : List VError) (name : String),
        (∀ e ∈ l, e.option = name) → name ≠ "salt" →
        l.filter (fun e => e.option == "salt") = [] := by
      intro l name hl hne
      rw [List.filter_eq_nil_iff]
      intro e he
      rw [hl e he]
      simpa using hne
    have hself : (validateSalt o.salt).filter (fun e => e.option == "salt") =
        validateSalt o.salt := by
      rw [List.filter_eq_self]
      intro e he
      simp [validateSalt_option o.salt e he]
    unfold validateOptions
    simp only [List.filter_append]
    rw [hnil _ _ (validateInput_option o.input) (by decide),
      hnil _ _ (validateOutput_option o.output) (by decide),
      hnil _ _ (validatePassword_option o.password) (by decide),
      hnil _ _ (validateIterations_option o.iterations) (by decide),
      hnil _ _ (validateKeylen_option o.keylen) (by decide),
      hnil _ _ (validateDigest_option P o.digest) (by decide),
      hnil _ _ (validateAlgorithm_option P o.algorithm) (by decide),
      hself]
    simp

/-- Witness for C9: a Buffer salt passes the whole validation of an
otherwise valid request. -/
theorem salt_validation_accepts_string_or_buffer_witness :
    ((∀ s, validateSalt (.str s) = []) ∧
    (∀ b, validateSalt (.buf b) = []) ∧
    (∀ v, validateSalt v = [] ↔ (isString v = true ∨ isBuffer v = true)) ∧
    (validateOptions toyProvider
      { sampleOpts with salt := .buf [1, 2] }).filter
        (fun e => e.option == "salt") =
      validateSalt ({ sampleOpts with salt := .buf [1, 2] } : Options).salt) ∧
    validateOptions toyProvider
      (parseOptions { sampleOpts with salt := .buf [1, 2] }) = [] :=
  ⟨salt_validation_accepts_string_or_buffer toyProvider
    { sampleOpts with salt := .buf [1, 2] }, by decide⟩

/-- Lodash defaults leaves any field the caller supplied unchanged. -/
theorem jsDefault_of_ne {v : JSValue} (d : JSValue) (hv : v ≠ .undef) :
    jsDefault v d = v := by
  cases v <;> simp [jsDefault] <;> exact absurd rfl hv

/-- An options object whose five defaultable fields are unset, used to
witness the mutation claim. -/
def sparseOpts : Options :=
  { input := .str "in.txt"
    output := .str "out.txt"
    password := .str "p"
    salt := .undef
    iterations := .undef
    keylen := .undef
    digest := .undef
    algorithm := .undef }

/-- A one-object heap holding the partial options at reference zero. -/
def sparseHeap : Heap := fun _ => sparseOpts

/-- C10: each of the four entry points mutates the caller-supplied options
object in place through lodash defaults: after the call returns, the
caller's object carries the default value in every field it had left
unset (algorithm cast5-cbc, salt nodecipher, iterations 1000, keylen 512,
digest sha1), every field the caller did supply is unchanged, and no
other object is touched. -/
theorem entry_points_mutate_caller_options (P : CryptoProvider) (h : Heap)
    (r : Nat) (fs : FS) (cb : Bool) :
    (encryptHeapRun P h r cb fs).1 = entryPointHeap h r ∧
    (decryptHeapRun P h r cb fs).1 = entryPointHeap h r ∧
    (encryptSyncHeapRun P h r fs).1 = entryPointHeap h r ∧
    (decryptSyncHeapRun P h r fs).1 = entryPointHeap h r ∧
    entryPointHeap h r r = lodashDefaults (h r) Defaults ∧
    ((h r).algorithm = .undef →
      (entryPointHeap h r r).algorithm = .str "cast5-cbc") ∧
    ((h r).salt = .undef →
      (entryPointHeap h r r).salt = .str "nodecipher") ∧
    ((h r).iterations = .undef →
      (entryPointHeap h r r).iterations = .num 1000) ∧
    ((h r).keylen = .undef → (entryPointHeap h r r).keylen = .num 512) ∧
    ((h r).digest = .undef → (entryPointHeap h r r).digest = .str "sha1") ∧
    ((h r).input ≠ .undef → (entryPointHeap h r r).input = (h r).input) ∧
    ((h r).output ≠ .undef → (entryPointHeap h r r).output = (h r).output) ∧
    ((h r).password ≠ .undef →
      (entryPointHeap h r r).password = (h r).password) ∧
    ((h r).salt ≠ .undef → (entryPointHeap h r r).salt = (h r).salt) ∧
    ((h r).iterations ≠ .undef →
      (entryPointHeap h r r).iterations = (h r).iterations) ∧
    ((h r).keylen ≠ .undef → (entryPointHeap h r r).keylen = (h r).keylen) ∧
    ((h r).digest ≠ .undef → (entryPointHeap h r r).digest = (h r).digest) ∧
    ((h r).algorithm ≠ .undef →
      (entryPointHeap h r r).algorithm = (h r).algorithm) ∧
    (∀ q, q ≠ r → entryPointHeap h r q = h q) := by
  have hset : entryPointHeap h r r = lodashDefaults (h r) Defaults := by
    simp [entryPointHeap, parseOptionsMut, Heap.set]
  refine ⟨rfl, rfl, rfl, rfl, hset, ?_, ?_, ?_, ?_, ?_, ?_, ?_, ?_, ?_, ?_,
    ?_, ?_, ?_, ?_⟩
  · intro hf; rw [hset]; simp [lodashDefaults, hf, jsDefault, Defaults]
  · intro hf; rw [hset]; simp [lodashDefaults, hf, jsDefault, Defaults]
  · intro hf; rw [hset]; simp [lodashDefaults, hf, jsDefault, Defaults]
  · intro hf; rw [hset]; simp [lodashDefaults, hf, jsDefault, Defaults]
  · intro hf; rw [hset]; simp [lodashDefaults, hf, jsDefault, Defaults]
  · intro hf; rw [hset]; exact jsDefault_of_ne _ hf
  · intro hf; rw [hset]; exact jsDefault_of_ne _ hf
  · intro hf; rw [hset]; exact jsDefault_of_ne _ hf
  · intro hf; rw [hset]; exact jsDefault_of_ne _ hf
  · intro hf; rw [hset]; exact jsDefault_of_ne _ hf
  · intro hf; rw [hset]; exact jsDefault_of_ne _ hf
  · intro hf; rw [hset]; exact jsDefault_of_ne _ hf
  · intro hf; rw [hset]; exact jsDefault_of_ne _ hf
  · intro q hq; simp [entryPointHeap, parseOptionsMut, Heap.set, hq]

/-- Witness for C10: after encryptSync on the partial options object, the
caller's object carries the five defaults and keeps its supplied input,
output and password. -/
theorem entry_points_mutate_caller_options_witness :
    sparseOpts.algorithm = .undef ∧
    sparseOpts.password = .str "p" ∧
    (encryptSyncHeapRun toyProvider sparseHeap 0 emptyFS).1 0 =
      lodashDefaults sparseOpts Defaults ∧
    ((encryptSyncHeapRun toyProvider sparseHeap 0 emptyFS).1 0).algorithm =
      .str "cast5-cbc" ∧
    ((encryptSyncHeapRun toyProvider sparseHeap 0 emptyFS).1 0).salt =
      .str "nodecipher" ∧
    ((encryptSyncHeapRun toyProvider sparseHeap 0 emptyFS).1 0).iterations =
      .num 1000 ∧
    ((encryptSyncHeapRun toyProvider sparseHeap 0 emptyFS).1 0).keylen =
      .num 512 ∧
    ((encryptSyncHeapRun toyProvider sparseHeap 0 emptyFS).1 0).digest =
      .str "sha1" ∧
    ((encryptSyncHeapRun toyProvider sparseHeap 0 emptyFS).1 0).password =
      .str "p" := by
  have hmain := entry_points_mutate_caller_options toyProvider sparseHeap 0
    emptyFS true
  refine ⟨rfl, rfl, ?_, ?_, ?_, ?_, ?_, ?_, ?_⟩
  · rw [hmain.2.2.1]
    exact hmain.2.2.2.2.1
  · rw [hmain.2.2.1]
    exact hmain.2.2.2.2.2.1 rfl
  · rw [hmain.2.2.1]
    exact hmain.2.2.2.2.2.2.1 rfl
  · rw [hmain.2.2.1]
    exact hmain.2.2.2.2.2.2.2.1 rfl
  · rw [hmain.2.2.1]
    exact hmain.2.2.2.2.2.2.2.2.1 rfl
  · rw [hmain.2.2.1]
    exact hmain.2.2.2.2.2.2.2.2.2.1 rfl
  · rw [hmain.2.2.1]
    exact hmain.2.2.2.2.2.2.2.2.2.2.2.2.1 (by decide)

end NodeCipher
